import Mathlib

/-!
Verification development for the CatalogScanner repository
(`recipes.py`, `music.py`, `scanner.py`).

Images (numpy `ndarray`s of unsigned 8-bit BGR pixels) are modelled as
lists of rows, each row a list of pixels; a pixel is a triple of natural
numbers (one per colour channel).  Floating-point means and Euclidean
norms are modelled exactly over `ℚ`; a comparison `‖v‖ < t` is modelled
as `‖v‖² < t²`, which is equivalent for non-negative reals.  Fallible
operations (assertion failures, `cv2` shape errors, `KeyError` lookups,
`np.partition` bound errors) are modelled with `Option`/`Except`.
-/

/-- A pixel: one value per colour channel (B, G, R), each `0..255` in the
real data; the model does not need the upper bound. -/
def Pix : Type := ℕ × ℕ × ℕ

instance : DecidableEq Pix := by unfold Pix; infer_instance

/-- An image: a list of rows of pixels (numpy axis 0 = rows). -/
def Img : Type := List (List Pix)

instance : DecidableEq Img := by unfold Img; infer_instance

instance : Append Img := ⟨fun a b => List.append a b⟩

/-- Absolute difference of two channel values (`cv2.absdiff` on `uint8`;
`|a - b| ≤ 255` so no saturation occurs). -/
def chanDiff (a b : ℕ) : ℕ := Nat.dist a b

/-- Sum of absolute channel differences of two pixels. -/
def pixDiff (p q : Pix) : ℕ :=
  chanDiff p.1 q.1 + chanDiff p.2.1 q.2.1 + chanDiff p.2.2 q.2.2

/-- Sum of absolute differences of two pixel rows (elementwise). -/
def rowSAD (r s : List Pix) : ℕ := (List.zipWith pixDiff r s).sum

/-- Sum of absolute differences of two images: `cv2.absdiff(a, b).sum()`.
The source only applies it to equally-shaped arrays. -/
def sadImg (a b : Img) : ℕ := (List.zipWith rowSAD a b).sum

/-- Number of pixels of an image. -/
def pixCount (a : Img) : ℕ := (a.map List.length).sum

/-- Number of scalar entries of an image (3 channels per pixel); the
denominator of numpy's `.mean()`. -/
def elemCount (a : Img) : ℕ := 3 * pixCount a

/-- Row-lengths profile; two equally-shaped arrays have equal profiles. -/
def shapeOf (a : Img) : List ℕ := a.map List.length

/-- Mean absolute difference, `cv2.absdiff(a, b).mean()`, exact over `ℚ`.
The source only applies it to equally-shaped arrays, whose element count
is `elemCount a`. -/
def meanAbsDiff (a b : Img) : ℚ := (sadImg a b : ℚ) / (elemCount a : ℚ)

/-- Python slice `a[i:j]` (with `0 ≤ i ≤ j`) on a list. -/
def pySlice (l : List α) (i j : ℕ) : List α := (l.take j).drop i

/-- Rectangular sub-image `a[r1:r2, c1:c2]`. -/
def subImg (a : Img) (r1 r2 c1 c2 : ℕ) : Img :=
  (pySlice a r1 r2).map (fun row => pySlice row c1 c2)

/-- Sub-image with open row end, `a[r1:, c1:c2]`. -/
def subImgRowsFrom (a : Img) (r1 c1 c2 : ℕ) : Img :=
  (a.drop r1).map (fun row => pySlice row c1 c2)

/-- Channel-wise sum of all pixels of an image. -/
def colorSum (a : Img) : ℕ × ℕ × ℕ :=
  a.foldl
    (fun acc row => row.foldl
      (fun t p => (t.1 + p.1, t.2.1 + p.2.1, t.2.2 + p.2.2)) acc)
    (0, 0, 0)

/-- Channel-wise mean colour, `a.mean(axis=(0, 1))`, exact over `ℚ`. -/
def meanColor (a : Img) : ℚ × ℚ × ℚ :=
  let n : ℚ := (pixCount a : ℚ)
  (((colorSum a).1 : ℚ) / n, ((colorSum a).2.1 : ℚ) / n, ((colorSum a).2.2 : ℚ) / n)

/-- Squared Euclidean distance between a mean colour and a reference
colour; `numpy.linalg.norm(color - ref) < t` is modelled as
`sqColorDist color ref < t^2`. -/
def sqColorDist (m : ℚ × ℚ × ℚ) (c : ℕ × ℕ × ℕ) : ℚ :=
  (m.1 - (c.1 : ℚ))^2 + (m.2.1 - (c.2.1 : ℚ))^2 + (m.2.2 - (c.2.2 : ℚ))^2

/-- Python's builtin `min(iterable, key=k)`: the first element attaining
the minimal key (later elements replace the running best only on a
strictly smaller key), `None`-like failure on an empty iterable
(`ValueError`). -/
def pyMinBy [LinearOrder β] (key : α → β) : List α → Option α
  | [] => none
  | x :: xs =>
    match pyMinBy key xs with
    | none => some x
    | some m => if key m < key x then some m else some x

/-- First index of the minimum of a list (`numpy.argmin`: ties resolved
to the first occurrence). -/
def argminL [LinearOrder α] (l : List α) : ℕ :=
  match l.min? with
  | none => 0
  | some m => l.findIdx (fun x => decide (x = m))

/-- Minimum value of a list, `0` for an empty list (the source never
takes the minimum of an empty list). -/
def listMin [LinearOrder α] [Zero α] (l : List α) : α := l.min?.getD 0

/-- Second-smallest value of a list as a multiset (the two values
`np.partition(similarities, kth=2)[:2]` extracts are the two smallest;
their order does not matter because only `abs(sim1 - sim2)` is used). -/
def secondMin [LinearOrder α] [Zero α] [DecidableEq α] (l : List α) : α :=
  listMin (l.erase (listMin l))

/-! ## `recipes.py` -/

/-- Mapping from background colours (BGR) to card type, in the insertion
order of the `CARD_TYPES` dict literal of `recipes.py`. -/
def CARD_TYPES : List ((ℕ × ℕ × ℕ) × String) :=
  [((174, 220, 228), "beige"),
   ((229, 213, 189), "blue"),
   ((113, 159, 183), "brick"),
   ((65, 106, 143), "brown"),
   ((110, 108, 108), "dark-gray"),
   ((123, 199, 211), "gold"),
   ((128, 225, 156), "green"),
   ((188, 188, 187), "light-gray"),
   ((109, 199, 239), "orange"),
   ((185, 181, 238), "pink"),
   ((87, 76, 204), "red"),
   ((163, 160, 159), "silver"),
   ((229, 233, 233), "white"),
   ((125, 224, 229), "yellow")]

/-- The image and data associated with a given recipe
(`recipes.RecipeCard`). -/
structure RecipeCard where
  item_name : String
  card_type : String
  img : Img
deriving DecidableEq

/-- Python slice `a[28:-28]` on the rows of a loaded reference image
(the crop in `RecipeCard.__init__`). -/
def cropRows28 (a : Img) : Img := (a.take (a.length - 28)).drop 28

/-- `RecipeCard.__init__`: the reference image is loaded from disk by
item name (modelled by the `loadImg` parameter, the image-file contents)
and cropped by 28 rows top and bottom. -/
def mkRecipeCard (loadImg : String → Img) (item_name card_type : String) : RecipeCard :=
  ⟨item_name, card_type, cropRows28 (loadImg item_name)⟩

/-- The per-category list built by the `defaultdict` loop of
`_get_recipe_db`, before the orange/pink/yellow merge: the cards whose
type tag equals `t`, in database-file order. -/
def recipeDbBase (loadImg : String → Img) (data : List (String × String)) (t : String) : List RecipeCard :=
  (data.filter (fun e => e.2 = t)).map (fun e => mkRecipeCard loadImg e.1 e.2)

/-- The merged orange/pink/yellow list of `_get_recipe_db`. -/
def recipeDbMerged (loadImg : String → Img) (data : List (String × String)) : List RecipeCard :=
  recipeDbBase loadImg data "orange" ++ recipeDbBase loadImg data "pink"
    ++ recipeDbBase loadImg data "yellow"

/-- `_get_recipe_db`: the item database keyed by card type.  `data` is
the `(item_name, card_type)` content of `diys/names.json` (the middle
tuple component is dropped by the source too); `loadImg` supplies the
reference image files.  After the build loop the source reassigns the
keys `orange`, `pink` and `yellow` to the concatenated merged list. -/
def getRecipeDb (loadImg : String → Img) (data : List (String × String)) : String → List RecipeCard :=
  fun t =>
    if t = "orange" ∨ t = "pink" ∨ t = "yellow" then recipeDbMerged loadImg data
    else recipeDbBase loadImg data t

/-- `_guess_card_type`: mean colour of the corner strip
`card[106:, 60:70, :]`, then the nearest `CARD_TYPES` key by Euclidean
distance (Python `min` with key: first minimum).  When the sampled strip
is empty numpy's mean is `NaN` and the source's comparisons are
meaningless; the model returns `none` there (real cards are 112×112, so
the strip is never empty). -/
def guessCardType (card : Img) : Option String :=
  let sample := subImgRowsFrom card 106 60 70
  if pixCount sample = 0 then none
  else
    (pyMinBy (fun ct => sqColorDist (meanColor sample) ct.1) CARD_TYPES).map
      (fun best => best.2)

/-- The fast similarity metric of `_find_best_match`:
`cv2.absdiff(card, r.img).mean()`. -/
def fastSim (card refImg : Img) : ℚ := meanAbsDiff card refImg

/-- The fast similarity scores of all candidates, in candidate order. -/
def fastSims (card : Img) (recipes : List RecipeCard) : List ℚ :=
  recipes.map (fun r => fastSim card r.img)

/-- `numpy.roll(a, y, axis=0)`: cyclic rotation of the rows by `y`
(`result[i] = a[(i - y) mod n]`). -/
def rollRows (a : Img) (y : ℤ) : Img :=
  if a.length = 0 then a else a.rotateRight (y % (a.length : ℤ)).toNat

/-- The slow similarity metric of `_find_best_match`: the least summed
absolute difference over vertical rolls of the card by -2, -1, 0 and 1
rows. -/
def slowSim (card refImg : Img) : ℕ :=
  listMin (([-2, -1, 0, 1] : List ℤ).map (fun y => sadImg (rollRows card y) refImg))

/-- `_find_best_match`, generalised over the slow metric (the source
instantiates `slowf := slowSim`; the generalisation witnesses that the
fast path never evaluates the slow metric).  `np.partition(.., kth=2)`
demands at least three candidates and raises `ValueError` otherwise
(modelled by `none`); `sim1`/`sim2` are the two smallest fast scores as
a multiset, so `abs(sim1 - sim2)` is `secondMin - listMin` and the
decisive-margin test compares it with 3.  Both result branches return
the candidate at the first index of the minimal score (`np.argmin`). -/
def findBestMatchWith (slowf : Img → Img → ℕ) (card : Img) (recipes : List RecipeCard) : Option RecipeCard :=
  if recipes.length < 3 then none
  else
    let sims := fastSims card recipes
    if 3 < abs (listMin sims - secondMin sims) then recipes.get? (argminL sims)
    else recipes.get? (argminL (recipes.map (fun r => slowf card r.img)))

/-- `_find_best_match` of `recipes.py`. -/
def findBestMatch (card : Img) (recipes : List RecipeCard) : Option RecipeCard :=
  findBestMatchWith slowSim card recipes

/-- One iteration of the `match_recipes` loop: classify the card, find
its best match in that category's list, and add the matched name to the
accumulated set (modelled as a duplicate-free list; Python's `set`
only determines membership, not order). -/
def matchRecipesStep (db : String → List RecipeCard) (acc : List String) (card : Img) : Option (List String) := do
  let t ← guessCardType card
  let r ← findBestMatch card (db t)
  pure (if r.item_name ∈ acc then acc else acc ++ [r.item_name])

/-- `match_recipes`: match every card against the database, collecting
the set of matched names; any matching error aborts the scan. -/
def matchRecipes (db : String → List RecipeCard) (cards : List Img) : Option (List String) :=
  cards.foldlM (matchRecipesStep db) []

/-! ## `music.py` -/

/-- The expected colour for the video background (`music.BG_COLOR`). -/
def BG_COLOR : ℕ × ℕ × ℕ := (238, 217, 101)

/-- The image and data associated with a given song (`music.SongCover`).
A perceptual hash is a fixed-length bit fingerprint; `imagehash` stores
it as a boolean array. -/
structure SongCover where
  song_name : String
  icon_hash : List Bool
deriving DecidableEq

/-- Hamming distance of two perceptual hashes: `imagehash.ImageHash`
subtraction counts the differing bits (hashes of equal length). -/
def hamDist (a b : List Bool) : ℕ :=
  ((List.zipWith (fun x y => decide (x ≠ y)) a b).filter id).length

/-- The best database entry for one cover:
`min(song_db, key=lambda x: x.icon_hash - test_hash)`.  The perceptual
hash of the tile (`imagehash.phash(image, hash_size=18)`) is an external
library computation, modelled by the `phash` parameter.  Python's `min`
raises on an empty database (`none`). -/
def bestSongMatch (phash : Img → List Bool) (db : List SongCover) (cover : Img) : Option SongCover :=
  pyMinBy (fun s => hamDist s.icon_hash (phash cover)) db

/-- `match_songs`: match every cover, collecting the set of matched song
names (modelled as a duplicate-free list). -/
def matchSongs (phash : Img → List Bool) (db : List SongCover) (covers : List Img) : Option (List String) :=
  covers.foldlM
    (fun acc cover => do
      let best ← bestSongMatch phash db cover
      pure (if best.song_name ∈ acc then acc else acc ++ [best.song_name])) []

/-- `music.detect`: mean colour of `frame[:20, 1220:1250]` within
Euclidean distance 10 of the background colour. -/
def musicDetect (frame : Img) : Bool :=
  decide (sqColorDist (meanColor (subImg frame 0 20 1220 1250)) BG_COLOR < 100)

/-- The blank test of `_remove_blanks`: mean colour of the strip
`icon[5:25, 60:200]` within Euclidean distance 5 of the background
colour. -/
def isBlankIcon (icon : Img) : Bool :=
  decide (sqColorDist (meanColor (subImg icon 5 25 60 200)) BG_COLOR < 25)

/-- `_remove_blanks`: keep, in order, the icons that do not show the
background colour (the source's append loop is a filter). -/
def removeBlanks (icons : List Img) : List Img :=
  icons.filter (fun icon => !(isBlankIcon icon))

/-- numpy shape `a.shape[:2]` of a frame: (rows, columns); numpy arrays
are rectangular, so the first row's length is the column count. -/
def frameShape (f : Img) : ℕ × ℕ := (f.length, (f.headD []).length)

/-- Error message of the resolution assertion in `_read_frames`. -/
def errResolution : String := "Invalid resolution"

/-- Error message for `cv2` shape mismatches. -/
def errShape : String := "cv2 error: shape mismatch"

/-- Error message for `cv2.absdiff` applied to a `None` concatenation. -/
def errNoneArg : String := "cv2 error: absdiff with None"

/-- `music._read_frames` over a decoded frame sequence: every frame is
first checked against the fixed 720x1280 resolution (a failed `assert`
aborts the scan), then frames not showing the music list are skipped,
and the region `frame[95:670, 40:1240]` of the rest is yielded. -/
def musicReadFrames : List Img → Except String (List Img)
  | [] => .ok []
  | f :: fs =>
    if frameShape f ≠ (720, 1280) then .error errResolution
    else if !(musicDetect f) then musicReadFrames fs
    else do
      let rest ← musicReadFrames fs
      pure (subImg f 95 670 40 1240 :: rest)

/-- `recipes._read_frames`: same resolution assertion, no detection
filter, region `frame[110:720, 45:730]`. -/
def recipesReadFrames : List Img → Except String (List Img)
  | [] => .ok []
  | f :: fs =>
    if frameShape f ≠ (720, 1280) then .error errResolution
    else do
      let rest ← recipesReadFrames fs
      pure (subImg f 110 720 45 730 :: rest)

/-- `cv2.hconcat`: `none` for an empty list (the source checks
`old_concat is None`); horizontal concatenation of the rows otherwise,
an error if the tiles do not all have the same number of rows. -/
def hconcatImgs : List Img → Except String (Option Img)
  | [] => .ok none
  | t :: rest =>
    if rest.all (fun u => u.length = t.length) then
      .ok (some (rest.foldl (fun acc u => List.zipWith (fun a b => a ++ b) acc u) t))
    else .error errShape

/-- `cv2.absdiff(a, b).mean()` with `cv2`'s shape check: equal shapes
are required, otherwise `cv2` raises. -/
def absdiffMeanChecked (a b : Img) : Except String ℚ :=
  if shapeOf a = shapeOf b then .ok (meanAbsDiff a b) else .error errShape

/-- Python slice `l[-n:]` on a list (clamped like Python). -/
def lastSlice (l : List α) (n : ℕ) : List α := l.drop (l.length - n)

/-- Python slice `l[-a:-b]` on a list (clamped like Python, `a > b`). -/
def midSlice (l : List α) (a b : ℕ) : List α :=
  (l.take (l.length - b)).drop (l.length - a)

/-- One window comparison of `_is_duplicate_cards`: concatenate the
history window; a `None` concatenation (empty window) is skipped
(`some false` here, meaning: continue); otherwise compare with the
concatenated new row and report whether the mean difference is below
15.  `cv2.absdiff` raises if the new concatenation is `None` (empty new
row) or the shapes differ. -/
def dupWindowCheck (newConcat : Option Img) (window : List Img) : Except String Bool := do
  let oldConcat ← hconcatImgs window
  match oldConcat with
  | none => pure false
  | some oldC =>
    match newConcat with
    | none => .error errNoneArg
    | some newC => do
      let m ← absdiffMeanChecked newC oldC
      pure (decide (m < 15))

/-- `music._is_duplicate_cards`: no duplicate when the history is empty
or shorter than the new row; otherwise the new row is compared against
the history windows `[-4:]` and `[-8:-4]` in that order, and it is a
duplicate as soon as one window is within mean difference 15. -/
def musicIsDuplicate (allCovers newCovers : List Img) : Except String Bool :=
  if allCovers.isEmpty ∨ allCovers.length < newCovers.length then .ok false
  else do
    let newConcat ← hconcatImgs newCovers
    let r1 ← dupWindowCheck newConcat (lastSlice allCovers 4)
    if r1 then pure true
    else do
      let r2 ← dupWindowCheck newConcat (midSlice allCovers 8 4)
      pure r2

/-- `recipes._is_duplicate_cards`: guard on an empty new row or a
shorter history, then windows `[-5:]`, `[-10:-5]` and `[-15:-10]`. -/
def recipesIsDuplicate (allCards newCards : List Img) : Except String Bool :=
  if newCards.isEmpty ∨ allCards.length < newCards.length then .ok false
  else do
    let newConcat ← hconcatImgs newCards
    let r1 ← dupWindowCheck newConcat (lastSlice allCards 5)
    if r1 then pure true
    else do
      let r2 ← dupWindowCheck newConcat (midSlice allCards 10 5)
      if r2 then pure true
      else do
        let r3 ← dupWindowCheck newConcat (midSlice allCards 15 10)
        pure r3

/-- One step of the `music.parse_video` accumulation loop: a duplicate
row is skipped, any other row is appended to the history. -/
def musicAcceptRow (allCovers newCovers : List Img) : Except String (List Img) := do
  let d ← musicIsDuplicate allCovers newCovers
  pure (if d then allCovers else allCovers ++ newCovers)

/-- The `recipes.parse_video` accumulation step. -/
def recipesAcceptRow (allCards newCards : List Img) : Except String (List Img) := do
  let d ← recipesIsDuplicate allCards newCards
  pure (if d then allCards else allCards ++ newCards)

/-- `music.parse_video` from the segmented rows onward: the per-frame
reading and grid segmentation (`_read_frames` composed with
`_parse_frame`) produce a sequence of rows of covers, modelled by the
`rows` input; the rows are accumulated with duplicate suppression and
the blanks are removed from the final history. -/
def musicParseVideoRows (rows : List (List Img)) : Except String (List Img) := do
  let allCovers ← rows.foldlM musicAcceptRow []
  pure (removeBlanks allCovers)

/-- The Python list comprehension `[g(name) for name in names]` over a
fallible per-name lookup: produces the results in input order, raising
(`none`) as soon as one lookup fails. -/
def lookupAll (g : String → Option String) : List String → Option (List String)
  | [] => some []
  | n :: rest => (g n).bind (fun v => (lookupAll g rest).map (fun vs => v :: vs))

/-- `translate_names` (identical in `music.py` and `recipes.py`): the
locales `auto` and `en-us` pass the names through without consulting the
translation table; any other locale looks every name up in the table
(`translations[name][locale]`), in input order, and a missing name or
locale key is a `KeyError` (`none`).  The table file contents are the
`transl` parameter. -/
def translateNames (transl : String → Option (String → Option String)) (names : List String) (locale : String) : Option (List String) :=
  if locale = "auto" ∨ locale = "en-us" then some names
  else lookupAll (fun n => (transl n).bind (fun t => t locale)) names

/-- Python `str.replace(pat, rep)` on character lists: scan left to
right, replacing each non-overlapping occurrence of the (non-empty)
pattern.  The fuel argument (initially the list length) makes the
recursion structural; it never runs out because each step consumes at
least one character. -/
def pyReplaceAux (pat rep : List Char) : ℕ → List Char → List Char
  | _, [] => []
  | 0, l => l
  | fuel + 1, c :: rest =>
    if pat ≠ [] ∧ pat.isPrefixOf (c :: rest) then
      rep ++ pyReplaceAux pat rep fuel ((c :: rest).drop pat.length)
    else c :: pyReplaceAux pat rep fuel rest

/-- Python `str.replace` (for a non-empty pattern). -/
def pyReplace (s pat rep : String) : String :=
  String.mk (pyReplaceAux pat.data rep.data s.data.length s.data)

/-- The final scan result (`common.ScanResult` as used by `music.scan`:
mode tag, item names, resolved locale). -/
structure ScanResultM where
  mode : String
  items : List String
  locale : String
deriving DecidableEq

/-- `music.scan` from the parsed covers onward (`parse_video` reads the
video file; its output is the `covers` parameter): match the covers,
translate the names, and resolve the locale with
`locale.replace('auto', 'en-us')`. -/
def musicScan (phash : Img → List Bool) (db : List SongCover) (transl : String → Option (String → Option String)) (covers : List Img) (locale : String) : Option ScanResultM := do
  let names ← matchSongs phash db covers
  let results ← translateNames transl names locale
  pure ⟨"MUSIC", results, pyReplace locale ("auto") ("en-us")⟩

/-! ## Concrete sample data

Small concrete images and databases used to evaluate the definitions on
explicit inputs.  A card must have at least 107 rows and 61 columns for
the corner strip sampled by `_guess_card_type` to be non-empty; real
cards are 112×112. -/

/-- A black pixel. -/
def zeroPix : Pix := ((0 : ℕ), (0 : ℕ), (0 : ℕ))

/-- The `pink` reference background colour as a pixel. -/
def pinkPix : Pix := ((185 : ℕ), (181 : ℕ), (238 : ℕ))

/-- The music-list background colour as a pixel. -/
def bgPix : Pix := ((238 : ℕ), (217 : ℕ), (101 : ℕ))

/-- An all-black 107×61 card; its corner strip is black, nearest to the
`dark-gray` palette entry. -/
def zeroCard : Img := List.replicate 107 (List.replicate 61 zeroPix)

/-- An all-pink 107×61 card; its corner strip matches the `pink`
palette entry exactly. -/
def pinkCard : Img := List.replicate 107 (List.replicate 61 pinkPix)

/-- Sample reference-image loader: the item `o1` gets an all-pink
image, every other item an all-black one (163 rows so that the
28-row top/bottom crop leaves 107 rows). -/
def demoLoad : String → Img := fun n =>
  if n = "o1" then List.replicate 163 (List.replicate 61 pinkPix)
  else List.replicate 163 (List.replicate 61 zeroPix)

/-- Sample database content: one orange, one pink and one yellow item. -/
def demoData : List (String × String) :=
  [("o1", "orange"), ("p1", "pink"), ("y1", "yellow")]

/-- A 1×1 card used for the small matcher examples. -/
def greyCard (v : ℕ) : Img := [[(v, v, v)]]

/-- A candidate whose 1×1 reference image has grey level `v`. -/
def greyRecipe (name : String) (v : ℕ) : RecipeCard := ⟨name, "beige", greyCard v⟩

/-- Two candidates whose fast scores (0 and 30) differ by more than the
margin 3. -/
def twoFar : List RecipeCard := [greyRecipe "a" 0, greyRecipe "b" 30]

/-- Two candidates with equal fast scores. -/
def twoTied : List RecipeCard := [greyRecipe "c" 1, greyRecipe "d" 1]

/-- Three candidates with fast scores 0, 30 and 60 against the black
1×1 card: a decisive fast-path input. -/
def threeFar : List RecipeCard := [greyRecipe "a" 0, greyRecipe "b" 30, greyRecipe "c" 60]

/-- Three candidates with fast scores 1, 2 and 0 against the black 1×1
card: an ambiguous input (gap 1 ≤ 3) whose slow scores are 3, 6 and 0. -/
def threeNear : List RecipeCard := [greyRecipe "a" 1, greyRecipe "b" 2, greyRecipe "c" 0]

/-- A 1×1 history tile. -/
def tile9 : Img := [[((9 : ℕ), (9 : ℕ), (9 : ℕ))]]

/-- A 1×1 white tile. -/
def tileW : Img := [[((255 : ℕ), (255 : ℕ), (255 : ℕ))]]

/-- A row of four equal 1×1 tiles (the music grid width). -/
def row4 : List Img := [tile9, tile9, tile9, tile9]

/-- A row of five equal 1×1 tiles (the recipes grid width). -/
def row5 : List Img := [tile9, tile9, tile9, tile9, tile9]

/-- A history of three white 1×1 tiles. -/
def hist3 : List Img := [tileW, tileW, tileW]

/-- A single-tile row: a row width the grid never produces. -/
def rowOne : List Img := [[[zeroPix]]]

/-- A 6×61 icon showing only the background colour: its sampled strip
`[5:25, 60:200]` is the single background pixel at (5, 60). -/
def blankIcon : Img := List.replicate 6 (List.replicate 61 bgPix)

/-- A frame whose resolution is 1×1 instead of 720×1280. -/
def badFrame : Img := [[zeroPix]]

/-- A sample song database with two entries of hash length 1. -/
def songDbDemo : List SongCover := [⟨"s1", [true]⟩, ⟨"s2", [false]⟩]

/-- A sample perceptual-hash function assigning every image the hash
`[false]` (the library hash is external; the matcher only consumes its
output). -/
def phashDemo : Img → List Bool := fun _ => [false]

/-- A sample translation table: the name `n1` has a `de-eu` entry and
nothing else; other names are absent. -/
def translDemo : String → Option (String → Option String) := fun n =>
  if n = "n1" then some (fun loc => if loc = "de-eu" then some ("N1") else none)
  else none

/-- A database assigning every category the same single candidate. -/
def dbOne : String → List RecipeCard := fun _ => [greyRecipe "solo" 0]

/-- One segmented frame-row consisting of four blank icons. -/
def rowsBlank : List (List Img) := [[blankIcon, blankIcon, blankIcon, blankIcon]]

/-! ## Helper lemmas -/

theorem listMin_eq_of_min? [LinearOrder α] [Zero α] {l : List α} {m : α}
    (h : l.min? = some m) : listMin l = m := by
  simp [listMin, h]

theorem min?_of_ne_nil [LinearOrder α] {l : List α} (h : l ≠ []) :
    ∃ m, l.min? = some m := by
  cases l with
  | nil => exact absurd rfl h
  | cons x xs => exact ⟨xs.foldl min x, rfl⟩

theorem listMin_mem [LinearOrder α] [Zero α] {l : List α} (h : l ≠ []) :
    listMin l ∈ l := by
  obtain ⟨m, hm⟩ := min?_of_ne_nil h
  rw [listMin_eq_of_min? hm]
  exact List.min?_mem min_choice hm

theorem listMin_le [LinearOrder α] [Zero α] {l : List α} {x : α} (hx : x ∈ l) :
    listMin l ≤ x := by
  obtain ⟨m, hm⟩ := min?_of_ne_nil (List.ne_nil_of_mem hx)
  rw [listMin_eq_of_min? hm]
  exact (List.le_min?_iff (fun _ _ _ => le_min_iff) hm).1 le_rfl x hx

theorem argminL_spec [LinearOrder α] {l : List α} (h : l ≠ []) :
    ∃ hlt : argminL l < l.length,
      l.get ⟨argminL l, hlt⟩ = l.min?.getD (l.get ⟨argminL l, hlt⟩)
        ∧ ∀ x ∈ l, l.get ⟨argminL l, hlt⟩ ≤ x := by
  obtain ⟨m, hm⟩ := min?_of_ne_nil h
  have hmem : m ∈ l := List.min?_mem min_choice hm
  have hex : ∃ x ∈ l, (fun x => decide (x = m)) x := ⟨m, hmem, by simp⟩
  have hidx : argminL l = l.findIdx (fun x => decide (x = m)) := by
    simp [argminL, hm]
  have hlt : argminL l < l.length := by
    rw [hidx]; exact List.findIdx_lt_length_of_exists hex
  refine ⟨hlt, ?_⟩
  have hval : l.get ⟨argminL l, hlt⟩ = m := by
    have := @List.findIdx_getElem _ (fun x => decide (x = m)) l (hidx ▸ hlt)
    simpa [List.get_eq_getElem, hidx] using of_decide_eq_true this
  constructor
  · rw [hm]
    simp only [Option.getD_some]
    exact hval
  · intro x hx
    rw [hval]
    exact (List.le_min?_iff (fun _ _ _ => le_min_iff) hm).1 le_rfl x hx

theorem argmin_map_get? [LinearOrder β] (f : α → β) {l : List α} (h : l ≠ []) :
    ∃ r, l.get? (argminL (l.map f)) = some r ∧ ∀ x ∈ l, f r ≤ f x := by
  have hmne : l.map f ≠ [] := by
    intro hh; exact h (List.map_eq_nil_iff.mp hh)
  obtain ⟨hlt, _, hle⟩ := argminL_spec hmne
  have hlt' : argminL (l.map f) < l.length := by
    simpa using hlt
  refine ⟨l.get ⟨argminL (l.map f), hlt'⟩, ?_, ?_⟩
  · simp [List.get?_eq_getElem?, List.getElem?_eq_getElem hlt', List.get_eq_getElem]
  · intro x hx
    have hx' : f x ∈ l.map f := List.mem_map_of_mem f hx
    have := hle (f x) hx'
    have hgm : (l.map f).get ⟨argminL (l.map f), hlt⟩
        = f (l.get ⟨argminL (l.map f), hlt'⟩) := by
      simp [List.get_eq_getElem]
    rwa [hgm] at this

theorem pyMinBy_cons [LinearOrder β] (key : α → β) (x : α) (xs : List α) :
    pyMinBy key (x :: xs) = match pyMinBy key xs with
      | none => some x
      | some m => if key m < key x then some m else some x := rfl

theorem pyMinBy_spec [LinearOrder β] (key : α → β) :
    ∀ (l : List α), l ≠ [] →
      ∃ i, ∃ hlt : i < l.length, pyMinBy key l = some (l.get ⟨i, hlt⟩)
        ∧ (∀ x ∈ l, key (l.get ⟨i, hlt⟩) ≤ key x)
        ∧ (∀ j, ∀ hj : j < l.length, j < i → key (l.get ⟨i, hlt⟩) < key (l.get ⟨j, hj⟩))
  | [], h => absurd rfl h
  | [x], _ => by
    refine ⟨0, by simp, by simp [pyMinBy], ?_, by omega⟩
    intro y hy
    simp at hy
    simp [hy, List.get]
  | x :: y :: ys, _ => by
    obtain ⟨i, hlt, hval, hle, hfirst⟩ := pyMinBy_spec key (y :: ys) (by simp)
    by_cases hcmp : key ((y :: ys).get ⟨i, hlt⟩) < key x
    · refine ⟨i + 1, by simpa using Nat.succ_lt_succ hlt, ?_, ?_, ?_⟩
      · rw [pyMinBy_cons, hval]
        simp only [if_pos hcmp]
        rfl
      · intro z hz
        rcases List.mem_cons.mp hz with rfl | hz'
        · exact le_of_lt hcmp
        · exact hle z hz'
      · intro j hj hji
        cases j with
        | zero => exact hcmp
        | succ j' =>
          have hj' : j' < (y :: ys).length := by simpa using hj
          have := hfirst j' hj' (by omega)
          simpa using this
    · refine ⟨0, by simp, ?_, ?_, by omega⟩
      · rw [pyMinBy_cons, hval]
        simp only [if_neg hcmp]
        rfl
      · intro z hz
        rcases List.mem_cons.mp hz with rfl | hz'
        · exact le_rfl
        · exact le_trans (not_lt.mp hcmp) (hle z hz')

theorem foldlM_option_none {α β : Type} (step : β → α → Option β) :
    ∀ (l : List α) (b : β) (x : α), x ∈ l → (∀ b', step b' x = none) →
      l.foldlM step b = none
  | [], _, _, hx, _ => absurd hx (List.not_mem_nil _)
  | a :: l, b, x, hx, hstep => by
    rw [List.foldlM_cons]
    rcases List.mem_cons.mp hx with rfl | hx'
    · simp [hstep b]
    · cases hsb : step b a with
      | none => simp
      | some b' =>
        simpa [hsb] using foldlM_option_none step l b' x hx' hstep

theorem exBind_ok {ε α β : Type} (a : α) (f : α → Except ε β) :
    (Except.ok a >>= f) = f a := rfl

theorem exBind_error {ε α β : Type} (e : ε) (f : α → Except ε β) :
    (Except.error e >>= f : Except ε β) = Except.error e := rfl

theorem optBind_some {α β : Type} (a : α) (f : α → Option β) :
    (some a >>= f) = f a := rfl

theorem rowSAD_self (r : List Pix) : rowSAD r r = 0 := by
  rw [rowSAD, List.zipWith_same]
  apply List.sum_eq_zero
  intro x hx
  obtain ⟨p, _, hp⟩ := List.mem_map.mp hx
  simp [pixDiff, chanDiff, Nat.dist_self] at hp
  exact hp.symm

theorem sadImg_self (a : Img) : sadImg a a = 0 := by
  rw [sadImg, List.zipWith_same]
  apply List.sum_eq_zero
  intro x hx
  obtain ⟨r, _, hr⟩ := List.mem_map.mp hx
  rw [rowSAD_self] at hr
  exact hr.symm

theorem meanAbsDiff_self (a : Img) : meanAbsDiff a a = 0 := by
  simp [meanAbsDiff, sadImg_self]

theorem findBestMatchWith_fast_eq (slowf : Img → Img → ℕ) (card : Img)
    (recipes : List RecipeCard) (h3 : ¬ recipes.length < 3)
    (hgap : 3 < abs (listMin (fastSims card recipes) - secondMin (fastSims card recipes))) :
    findBestMatchWith slowf card recipes = recipes.get? (argminL (fastSims card recipes)) := by
  rw [findBestMatchWith, if_neg h3]
  exact if_pos hgap

theorem findBestMatchWith_slow_eq (slowf : Img → Img → ℕ) (card : Img)
    (recipes : List RecipeCard) (h3 : ¬ recipes.length < 3)
    (hgap : ¬ 3 < abs (listMin (fastSims card recipes) - secondMin (fastSims card recipes))) :
    findBestMatchWith slowf card recipes
      = recipes.get? (argminL (recipes.map (fun r => slowf card r.img))) := by
  rw [findBestMatchWith, if_neg h3]
  exact if_neg hgap

theorem findBestMatchWith_short (slowf : Img → Img → ℕ) (card : Img)
    (recipes : List RecipeCard) (h3 : recipes.length < 3) :
    findBestMatchWith slowf card recipes = none := by
  rw [findBestMatchWith, if_pos h3]

theorem findBestMatchWith_mem {slowf : Img → Img → ℕ} {card : Img}
    {recipes : List RecipeCard} {r : RecipeCard}
    (h : findBestMatchWith slowf card recipes = some r) : r ∈ recipes := by
  by_cases h3 : recipes.length < 3
  · rw [findBestMatchWith_short slowf card recipes h3] at h
    cases h
  · by_cases hgap : 3 < abs (listMin (fastSims card recipes) - secondMin (fastSims card recipes))
    · rw [findBestMatchWith_fast_eq slowf card recipes h3 hgap] at h
      exact List.get?_mem h
    · rw [findBestMatchWith_slow_eq slowf card recipes h3 hgap] at h
      exact List.get?_mem h

theorem findBestMatch_mem {card : Img} {recipes : List RecipeCard} {r : RecipeCard}
    (h : findBestMatch card recipes = some r) : r ∈ recipes :=
  findBestMatchWith_mem h

theorem matchRecipesStep_some {db : String → List RecipeCard} {acc : List String}
    {card : Img} {acc' : List String} (h : matchRecipesStep db acc card = some acc') :
    ∃ t r, guessCardType card = some t ∧ findBestMatch card (db t) = some r
      ∧ acc' = (if r.item_name ∈ acc then acc else acc ++ [r.item_name]) := by
  unfold matchRecipesStep at h
  cases hg : guessCardType card with
  | none => rw [hg] at h; cases h
  | some t =>
    rw [hg, optBind_some] at h
    cases hf : findBestMatch card (db t) with
    | none => rw [hf] at h; cases h
    | some r =>
      rw [hf, optBind_some] at h
      exact ⟨t, r, rfl, hf, by injection h with h'; exact h'.symm⟩

theorem matchRecipes_fold_mem (db : String → List RecipeCard) :
    ∀ (cards : List Img) (acc names : List String),
      List.foldlM (matchRecipesStep db) acc cards = some names →
      ∀ n ∈ names, n ∈ acc ∨ ∃ t r, r ∈ db t ∧ r.item_name = n
  | [], acc, names, h, n, hn => by
    simp only [List.foldlM_nil] at h
    injection h with h'
    exact Or.inl (h' ▸ hn)
  | card :: cards, acc, names, h, n, hn => by
    rw [List.foldlM_cons] at h
    cases hs : matchRecipesStep db acc card with
    | none => rw [hs] at h; cases h
    | some acc' =>
      rw [hs, optBind_some] at h
      rcases matchRecipes_fold_mem db cards acc' names h n hn with hacc' | hdb
      · obtain ⟨t, r, _, hf, heq⟩ := matchRecipesStep_some hs
        subst heq
        by_cases hmem : r.item_name ∈ acc
        · rw [if_pos hmem] at hacc'
          exact Or.inl hacc'
        · rw [if_neg hmem] at hacc'
          rcases List.mem_append.mp hacc' with h1 | h2
          · exact Or.inl h1
          · right
            have : n = r.item_name := by simpa using h2
            exact ⟨t, r, findBestMatch_mem hf, this.symm⟩
      · exact Or.inr hdb

theorem lastSlice_append (hist row : List Img) :
    lastSlice (hist ++ row) row.length = row := by
  rw [lastSlice, List.length_append, Nat.add_sub_cancel]
  exact List.drop_left hist row

theorem hconcatImgs_uniform {row : List Img} {ht : ℕ} (hne : row ≠ [])
    (hh : ∀ t ∈ row, t.length = ht) : ∃ c, hconcatImgs row = .ok (some c) := by
  cases row with
  | nil => exact absurd rfl hne
  | cons t rest =>
    have hall : rest.all (fun u => u.length = t.length) = true := by
      rw [List.all_eq_true]
      intro u hu
      have h1 := hh u (List.mem_cons_of_mem t hu)
      have h2 := hh t (List.mem_cons_self t rest)
      simp [h1, h2]
    exact ⟨_, by rw [hconcatImgs, if_pos hall]⟩

theorem dupWindowCheck_self {row : List Img} {c : Img}
    (hc : hconcatImgs row = .ok (some c)) :
    dupWindowCheck (some c) row = .ok true := by
  rw [dupWindowCheck, hc, exBind_ok]
  show (absdiffMeanChecked c c >>= _) = _
  rw [absdiffMeanChecked, if_pos rfl, exBind_ok, meanAbsDiff_self]
  have h15 : (0 : ℚ) < 15 := by norm_num
  rw [decide_eq_true h15]
  rfl

theorem musicIsDuplicate_repeat {hist row : List Img} {ht : ℕ}
    (hlen : row.length = 4) (hh : ∀ t ∈ row, t.length = ht) :
    musicIsDuplicate (hist ++ row) row = .ok true := by
  have hne : row ≠ [] := by
    intro h
    rw [h] at hlen
    cases hlen
  obtain ⟨c, hc⟩ := hconcatImgs_uniform hne hh
  have hwin : lastSlice (hist ++ row) 4 = row := by
    rw [← hlen]
    exact lastSlice_append hist row
  rw [musicIsDuplicate, if_neg, hc, exBind_ok, hwin, dupWindowCheck_self hc, exBind_ok]
  · rfl
  · rw [not_or]
    constructor
    · simp [List.isEmpty_iff, hne]
    · rw [not_lt, List.length_append]
      omega

theorem recipesIsDuplicate_repeat {hist row : List Img} {ht : ℕ}
    (hlen : row.length = 5) (hh : ∀ t ∈ row, t.length = ht) :
    recipesIsDuplicate (hist ++ row) row = .ok true := by
  have hne : row ≠ [] := by
    intro h
    rw [h] at hlen
    cases hlen
  obtain ⟨c, hc⟩ := hconcatImgs_uniform hne hh
  have hwin : lastSlice (hist ++ row) 5 = row := by
    rw [← hlen]
    exact lastSlice_append hist row
  rw [recipesIsDuplicate, if_neg, hc, exBind_ok, hwin, dupWindowCheck_self hc, exBind_ok]
  · rfl
  · rw [not_or]
    constructor
    · simp [List.isEmpty_iff, hne]
    · rw [not_lt, List.length_append]
      omega

theorem musicReadFrames_error :
    ∀ (frames : List Img) (f : Img), f ∈ frames → frameShape f ≠ (720, 1280) →
      ∃ e, musicReadFrames frames = .error e
  | [], f, hf, _ => absurd hf (List.not_mem_nil f)
  | g :: fs, f, hf, hbad => by
    by_cases hg : frameShape g ≠ (720, 1280)
    · exact ⟨errResolution, by rw [musicReadFrames, if_pos hg]⟩
    · have hffs : f ∈ fs := by
        rcases List.mem_cons.mp hf with rfl | hffs
        · exact absurd hbad hg
        · exact hffs
      obtain ⟨e, he⟩ := musicReadFrames_error fs f hffs hbad
      refine ⟨e, ?_⟩
      cases hd : musicDetect g with
      | false =>
        rw [musicReadFrames, if_neg hg, hd]
        exact he
      | true =>
        rw [musicReadFrames, if_neg hg, hd]
        show (musicReadFrames fs >>= _) = _
        rw [he, exBind_error]

theorem recipesReadFrames_error :
    ∀ (frames : List Img) (f : Img), f ∈ frames → frameShape f ≠ (720, 1280) →
      ∃ e, recipesReadFrames frames = .error e
  | [], f, hf, _ => absurd hf (List.not_mem_nil f)
  | g :: fs, f, hf, hbad => by
    by_cases hg : frameShape g ≠ (720, 1280)
    · exact ⟨errResolution, by rw [recipesReadFrames, if_pos hg]⟩
    · have hffs : f ∈ fs := by
        rcases List.mem_cons.mp hf with rfl | hffs
        · exact absurd hbad hg
        · exact hffs
      obtain ⟨e, he⟩ := recipesReadFrames_error fs f hffs hbad
      refine ⟨e, ?_⟩
      rw [recipesReadFrames, if_neg hg]
      show (recipesReadFrames fs >>= _) = _
      rw [he, exBind_error]

theorem musicReadFrames_stops :
    ∀ (pre : List Img) (bad : Img), frameShape bad ≠ (720, 1280) →
      ∀ rest rest', musicReadFrames (pre ++ bad :: rest) = musicReadFrames (pre ++ bad :: rest')
  | [], bad, hbad, rest, rest' => by
    simp only [List.nil_append]
    rw [musicReadFrames, if_pos hbad, musicReadFrames, if_pos hbad]
  | g :: pre, bad, hbad, rest, rest' => by
    simp only [List.cons_append]
    by_cases hg : frameShape g ≠ (720, 1280)
    · rw [musicReadFrames, if_pos hg, musicReadFrames, if_pos hg]
    · have ih := musicReadFrames_stops pre bad hbad rest rest'
      cases hd : musicDetect g with
      | false =>
        rw [musicReadFrames, if_neg hg, hd]
        conv_rhs => rw [musicReadFrames, if_neg hg, hd]
        exact ih
      | true =>
        rw [musicReadFrames, if_neg hg, hd]
        conv_rhs => rw [musicReadFrames, if_neg hg, hd]
        show (musicReadFrames (pre ++ bad :: rest) >>= _)
          = (musicReadFrames (pre ++ bad :: rest') >>= _)
        rw [ih]

theorem recipesReadFrames_stops :
    ∀ (pre : List Img) (bad : Img), frameShape bad ≠ (720, 1280) →
      ∀ rest rest', recipesReadFrames (pre ++ bad :: rest) = recipesReadFrames (pre ++ bad :: rest')
  | [], bad, hbad, rest, rest' => by
    simp only [List.nil_append]
    rw [recipesReadFrames, if_pos hbad, recipesReadFrames, if_pos hbad]
  | g :: pre, bad, hbad, rest, rest' => by
    simp only [List.cons_append]
    by_cases hg : frameShape g ≠ (720, 1280)
    · rw [recipesReadFrames, if_pos hg, recipesReadFrames, if_pos hg]
    · have ih := recipesReadFrames_stops pre bad hbad rest rest'
      rw [recipesReadFrames, if_neg hg]
      conv_rhs => rw [recipesReadFrames, if_neg hg]
      show (recipesReadFrames (pre ++ bad :: rest) >>= _)
        = (recipesReadFrames (pre ++ bad :: rest') >>= _)
      rw [ih]

theorem lookupAll_some (g : String → Option String) (trf : String → String) :
    ∀ names : List String, (∀ n ∈ names, g n = some (trf n)) →
      lookupAll g names = some (names.map trf)
  | [], _ => rfl
  | n :: rest, h => by
    have hn := h n (List.mem_cons_self n rest)
    rw [lookupAll, hn,
      lookupAll_some g trf rest (fun x hx => h x (List.mem_cons_of_mem n hx))]
    rfl

theorem lookupAll_none (g : String → Option String) :
    ∀ (names : List String) (n : String), n ∈ names → g n = none →
      lookupAll g names = none
  | [], n, hn, _ => absurd hn (List.not_mem_nil n)
  | x :: rest, n, hn, hg => by
    rw [lookupAll]
    rcases List.mem_cons.mp hn with rfl | h'
    · rw [hg]
      rfl
    · cases hgx : g x with
      | none => rfl
      | some v => rw [lookupAll_none g rest n h' hg]; rfl

theorem matchSongs_single {phash : Img → List Bool} {db : List SongCover}
    {cover : Img} {e : SongCover} (hb : bestSongMatch phash db cover = some e) :
    matchSongs phash db [cover] = some [e.song_name] := by
  rw [matchSongs, List.foldlM_cons]
  rw [show (do
        let best ← bestSongMatch phash db cover
        pure (if best.song_name ∈ ([] : List String) then ([] : List String)
          else [] ++ [best.song_name])) = some [e.song_name] by
    rw [hb, optBind_some]
    simp]
  rfl

theorem musicScan_locale {phash : Img → List Bool} {db : List SongCover}
    {transl : String → Option (String → Option String)} {covers : List Img}
    {locale : String} {res : ScanResultM}
    (h : musicScan phash db transl covers locale = some res) :
    res.locale = pyReplace locale ("auto") ("en-us") := by
  unfold musicScan at h
  cases hm : matchSongs phash db covers with
  | none => rw [hm] at h; cases h
  | some names =>
    rw [hm, optBind_some] at h
    cases ht : translateNames transl names locale with
    | none => rw [ht] at h; cases h
    | some rs =>
      rw [ht, optBind_some] at h
      injection h with h'
      rw [← h']

theorem musicParseVideoRows_ok {rows : List (List Img)} {icons : List Img}
    (hp : musicParseVideoRows rows = .ok icons) :
    ∃ allCovers, List.foldlM musicAcceptRow [] rows = .ok allCovers
      ∧ icons = removeBlanks allCovers := by
  rw [musicParseVideoRows] at hp
  cases hf : List.foldlM musicAcceptRow ([] : List Img) rows with
  | error e => rw [hf] at hp; cases hp
  | ok allc =>
    rw [hf, exBind_ok] at hp
    injection hp with h'
    exact ⟨allc, rfl, h'.symm⟩

/-! ## Claims -/

/-- C1, as stated, is false: `np.partition(similarities, kth=2)` raises
`ValueError` when the candidate list has fewer than three entries, so
for this two-candidate list whose two fast scores differ by more than
the margin 3 the matcher raises (modelled `none`) instead of returning
the fast-path winner. -/
theorem claim_C1_cex :
    3 < abs (listMin (fastSims (greyCard 0) twoFar)
        - secondMin (fastSims (greyCard 0) twoFar))
      ∧ findBestMatch (greyCard 0) twoFar = none := by
  constructor
  · with_unfolding_all decide
  · rfl

/-- C1 (amended: the candidate list must have at least three entries,
as the partition at index 2 requires): if the two smallest fast
similarity scores differ by more than the margin 3, the slow metric is
never evaluated — the result is identical for every choice of slow
metric — and the matcher returns the candidate with the minimal fast
score. -/
theorem claim_C1_amended (slowf : Img → Img → ℕ) (card : Img)
    (recipes : List RecipeCard) (h3 : 3 ≤ recipes.length)
    (hgap : 3 < abs (listMin (fastSims card recipes)
      - secondMin (fastSims card recipes))) :
    ∃ r, findBestMatchWith slowf card recipes = some r
      ∧ findBestMatch card recipes = some r
      ∧ r ∈ recipes
      ∧ ∀ x ∈ recipes, fastSim card r.img ≤ fastSim card x.img := by
  have h3' : ¬ recipes.length < 3 := not_lt.mpr h3
  have hne : recipes ≠ [] := by
    intro h
    rw [h] at h3
    simp at h3
  obtain ⟨r, hr, hmin⟩ := argmin_map_get? (fun r => fastSim card r.img) hne
  refine ⟨r, ?_, ?_, List.get?_mem hr, hmin⟩
  · rw [findBestMatchWith_fast_eq slowf card recipes h3' hgap]
    exact hr
  · rw [findBestMatch, findBestMatchWith_fast_eq slowSim card recipes h3' hgap]
    exact hr

/-- Witness for C1 at a concrete decisive input (three candidates with
fast scores 0, 30 and 60 against a black tile). -/
theorem claim_C1_witness :
    ∃ r, findBestMatchWith (fun _ _ => 37) (greyCard 0) threeFar = some r
      ∧ findBestMatch (greyCard 0) threeFar = some r
      ∧ r ∈ threeFar
      ∧ ∀ x ∈ threeFar, fastSim (greyCard 0) r.img ≤ fastSim (greyCard 0) x.img :=
  claim_C1_amended (fun _ _ => 37) (greyCard 0) threeFar (by decide)
    (by with_unfolding_all decide)

/-- C2, as stated, is false: with exactly two candidates the two
smallest fast scores exist (and here are equal, hence within the
margin), yet the matcher raises on the index-2 partition (modelled
`none`) rather than returning the slow-metric minimiser. -/
theorem claim_C2_cex :
    ¬ 3 < abs (listMin (fastSims (greyCard 0) twoTied)
        - secondMin (fastSims (greyCard 0) twoTied))
      ∧ findBestMatch (greyCard 0) twoTied = none := by
  constructor
  · with_unfolding_all decide
  · rfl

/-- C2 (amended: the candidate list must have at least three entries,
as the partition at index 2 requires): if the two smallest fast scores
differ by at most the margin 3, the matcher returns the first candidate
minimising the slow metric — the minimum over cyclic vertical rolls of
the tile by -2, -1, 0 and 1 rows of the summed absolute difference —
and not the fast-path winner. -/
theorem claim_C2_amended (card : Img) (recipes : List RecipeCard)
    (h3 : 3 ≤ recipes.length)
    (hgap : ¬ 3 < abs (listMin (fastSims card recipes)
      - secondMin (fastSims card recipes))) :
    ∃ r, findBestMatch card recipes = some r
      ∧ findBestMatch card recipes
          = recipes.get? (argminL (recipes.map (fun x => slowSim card x.img)))
      ∧ r ∈ recipes
      ∧ ∀ x ∈ recipes, slowSim card r.img ≤ slowSim card x.img := by
  have h3' : ¬ recipes.length < 3 := not_lt.mpr h3
  have hne : recipes ≠ [] := by
    intro h
    rw [h] at h3
    simp at h3
  obtain ⟨r, hr, hmin⟩ := argmin_map_get? (fun x => slowSim card x.img) hne
  have heq : findBestMatch card recipes
      = recipes.get? (argminL (recipes.map (fun x => slowSim card x.img))) := by
    rw [findBestMatch, findBestMatchWith_slow_eq slowSim card recipes h3' hgap]
  exact ⟨r, heq.trans hr, heq, List.get?_mem hr, hmin⟩

/-- Witness for C2 at a concrete ambiguous input (fast scores 1, 2 and
0; slow scores 3, 6 and 0). -/
theorem claim_C2_witness :
    ∃ r, findBestMatch (greyCard 0) threeNear = some r
      ∧ findBestMatch (greyCard 0) threeNear
          = threeNear.get? (argminL (threeNear.map (fun x => slowSim (greyCard 0) x.img)))
      ∧ r ∈ threeNear
      ∧ ∀ x ∈ threeNear, slowSim (greyCard 0) r.img ≤ slowSim (greyCard 0) x.img :=
  claim_C2_amended (greyCard 0) threeNear (by decide) (by with_unfolding_all decide)

/-- C9: the fast path's `np.partition(.., kth=2)` requires at least
three candidates; for a category list with exactly one or two entries
(and in general fewer than three) the matcher raises (modelled `none`)
instead of returning the nearest candidate, and a scan containing such
a tile aborts with no result. -/
theorem claim_C9 :
    (∀ (card : Img) (recipes : List RecipeCard),
        recipes.length = 1 ∨ recipes.length = 2 → findBestMatch card recipes = none)
      ∧ (∀ (slowf : Img → Img → ℕ) (card : Img) (recipes : List RecipeCard),
          recipes.length < 3 → findBestMatchWith slowf card recipes = none)
      ∧ (∀ (db : String → List RecipeCard) (cards : List Img) (c : Img) (t : String),
          c ∈ cards → guessCardType c = some t →
          ((db t).length = 1 ∨ (db t).length = 2) → matchRecipes db cards = none) := by
  have hshort : ∀ (slowf : Img → Img → ℕ) (card : Img) (recipes : List RecipeCard),
      recipes.length < 3 → findBestMatchWith slowf card recipes = none :=
    fun slowf card recipes h => findBestMatchWith_short slowf card recipes h
  refine ⟨?_, hshort, ?_⟩
  · intro card recipes h
    apply hshort
    rcases h with h | h <;> omega
  · intro db cards c t hc hg hdb
    rw [matchRecipes]
    apply foldlM_option_none (matchRecipesStep db) cards [] c hc
    intro acc
    rw [matchRecipesStep, hg, optBind_some, findBestMatch,
      hshort slowSim c (db t) (by rcases hdb with h | h <;> omega)]
    rfl

/-- Witness for C9: a black card classified `dark-gray` against a
database whose every category holds a single candidate. -/
theorem claim_C9_witness : matchRecipes dbOne [zeroCard] = none :=
  claim_C9.2.2 dbOne [zeroCard] zeroCard ("dark-gray") (by simp)
    (by with_unfolding_all decide) (Or.inl rfl)

/-- C3, as stated, is false for rows that do not have the grid's width:
after accepting a history of three tiles and then a non-empty
single-tile row, re-presenting the identical row makes the suppressor
compare concatenations of different widths, so `cv2.absdiff` raises a
shape error instead of classifying the row as a duplicate. -/
theorem claim_C3_cex :
    rowOne ≠ [] ∧ musicIsDuplicate (hist3 ++ rowOne) rowOne = .error errShape := by
  constructor
  · decide
  · with_unfolding_all rfl

/-- C3 (amended: the row must have the grid's fixed tile count — 4 for
the music scanner, 5 for recipes — with uniformly tall tiles, which the
segmenter guarantees): once a row has been accepted and appended to the
history, presenting the identical row again is classified as a
duplicate (the most recent history window equals the row, so the mean
absolute difference is 0, below the threshold 15), and the accept step
leaves the history unchanged: the row contributes exactly one accepted
occurrence. -/
theorem claim_C3_amended (hist row : List Img) (ht : ℕ)
    (hh : ∀ t ∈ row, t.length = ht) :
    (row.length = 4 → musicIsDuplicate (hist ++ row) row = .ok true
        ∧ musicAcceptRow (hist ++ row) row = .ok (hist ++ row))
      ∧ (row.length = 5 → recipesIsDuplicate (hist ++ row) row = .ok true
        ∧ recipesAcceptRow (hist ++ row) row = .ok (hist ++ row)) := by
  constructor
  · intro h4
    have hd := @musicIsDuplicate_repeat hist row ht h4 hh
    refine ⟨hd, ?_⟩
    rw [musicAcceptRow, hd, exBind_ok]
    rfl
  · intro h5
    have hd := @recipesIsDuplicate_repeat hist row ht h5 hh
    refine ⟨hd, ?_⟩
    rw [recipesAcceptRow, hd, exBind_ok]
    rfl

/-- Witness for C3: a four-tile row for the music suppressor and a
five-tile row for the recipes suppressor, over a three-tile history. -/
theorem claim_C3_witness :
    (musicIsDuplicate (hist3 ++ row4) row4 = .ok true
        ∧ musicAcceptRow (hist3 ++ row4) row4 = .ok (hist3 ++ row4))
      ∧ (recipesIsDuplicate (hist3 ++ row5) row5 = .ok true
        ∧ recipesAcceptRow (hist3 ++ row5) row5 = .ok (hist3 ++ row5)) :=
  ⟨(claim_C3_amended hist3 row4 1 (by decide)).1 rfl,
   (claim_C3_amended hist3 row5 1 (by decide)).2 rfl⟩

/-- C5: a tile whose classified category has an empty candidate list
makes the whole matching step fail (`none`), never yielding a name; and
in general every name in a successful matching result is the
`item_name` of some entry of the database, so the matcher never invents
a name. -/
theorem claim_C5 :
    (∀ (db : String → List RecipeCard) (cards : List Img) (c : Img) (t : String),
        c ∈ cards → guessCardType c = some t → db t = [] →
        matchRecipes db cards = none)
      ∧ (∀ (card : Img) (recipes : List RecipeCard) (r : RecipeCard),
          findBestMatch card recipes = some r → r ∈ recipes)
      ∧ (∀ (db : String → List RecipeCard) (cards : List Img) (names : List String),
          matchRecipes db cards = some names →
          ∀ n ∈ names, ∃ t r, r ∈ db t ∧ r.item_name = n) := by
  refine ⟨?_, ?_, ?_⟩
  · intro db cards c t hc hg hdb
    rw [matchRecipes]
    apply foldlM_option_none (matchRecipesStep db) cards [] c hc
    intro acc
    rw [matchRecipesStep, hg, optBind_some, findBestMatch, hdb,
      findBestMatchWith_short slowSim c [] (by decide)]
    rfl
  · intro card recipes r h
    exact findBestMatch_mem h
  · intro db cards names h n hn
    rw [matchRecipes] at h
    rcases matchRecipes_fold_mem db cards [] names h n hn with h0 | hdb
    · exact absurd h0 (List.not_mem_nil n)
    · exact hdb

/-- Witness for C5: a black card classified `dark-gray` against a
database with only empty candidate lists. -/
theorem claim_C5_witness : matchRecipes (fun _ => []) [zeroCard] = none :=
  claim_C5.1 (fun _ => []) [zeroCard] zeroCard ("dark-gray") (by simp)
    (by with_unfolding_all decide) rfl

/-- C6: for every song cover, the hash matcher selects the database
entry whose perceptual hash has minimal Hamming distance to the tile's
hash; on ties the first such entry in database order wins (strictly
smaller distance than every earlier entry), no secondary tie-break is
applied, and `match_songs` records exactly that entry's name. -/
theorem claim_C6 (phash : Img → List Bool) (db : List SongCover) (cover : Img)
    (hne : db ≠ []) :
    ∃ i, ∃ hlt : i < db.length,
      bestSongMatch phash db cover = some (db.get ⟨i, hlt⟩)
        ∧ matchSongs phash db [cover] = some [(db.get ⟨i, hlt⟩).song_name]
        ∧ (∀ s ∈ db, hamDist (db.get ⟨i, hlt⟩).icon_hash (phash cover)
            ≤ hamDist s.icon_hash (phash cover))
        ∧ (∀ j, ∀ hj : j < db.length, j < i →
            hamDist (db.get ⟨i, hlt⟩).icon_hash (phash cover)
              < hamDist (db.get ⟨j, hj⟩).icon_hash (phash cover)) := by
  obtain ⟨i, hlt, hval, hle, hfirst⟩ :=
    pyMinBy_spec (fun s => hamDist s.icon_hash (phash cover)) db hne
  exact ⟨i, hlt, hval, matchSongs_single hval, hle, hfirst⟩

/-- Witness for C6 on a two-entry database where the second entry has
the strictly smaller Hamming distance. -/
theorem claim_C6_witness :
    ∃ i, ∃ hlt : i < songDbDemo.length,
      bestSongMatch phashDemo songDbDemo [] = some (songDbDemo.get ⟨i, hlt⟩)
        ∧ matchSongs phashDemo songDbDemo [[]] = some [(songDbDemo.get ⟨i, hlt⟩).song_name]
        ∧ (∀ s ∈ songDbDemo, hamDist (songDbDemo.get ⟨i, hlt⟩).icon_hash (phashDemo [])
            ≤ hamDist s.icon_hash (phashDemo []))
        ∧ (∀ j, ∀ hj : j < songDbDemo.length, j < i →
            hamDist (songDbDemo.get ⟨i, hlt⟩).icon_hash (phashDemo [])
              < hamDist (songDbDemo.get ⟨j, hj⟩).icon_hash (phashDemo [])) :=
  claim_C6 phashDemo songDbDemo [] (by decide)

/-- C4, as stated, is false in its locale-field clause: the source
resolves the locale with the substring replacement
`locale.replace('auto', 'en-us')`, so the non-`auto` locale `auto-x` is
not returned unchanged — the scan result's locale field becomes
`en-us-x`. -/
theorem claim_C4_cex :
    ("auto-x" : String) ≠ "auto"
      ∧ (musicScan phashDemo [] translDemo [] ("auto-x")).map ScanResultM.locale
          = some ("en-us-x")
      ∧ (musicScan phashDemo [] translDemo [] ("auto-x")).map ScanResultM.locale
          ≠ some ("auto-x") := by
  refine ⟨by decide, by decide, by decide⟩

/-- C4 (amended: the resolved locale is the requested locale with every
occurrence of the substring `auto` replaced by `en-us`; `auto` itself
resolves to `en-us` and locales not containing `auto` are unchanged):
`translate_names` with locale `auto` or `en-us` returns the names
unchanged without consulting the translation table; any other locale
yields, in input order, the translation of each name, and fails with a
lookup error as soon as a name (or its locale entry) is absent. -/
theorem claim_C4_amended (transl transl' : String → Option (String → Option String))
    (names : List String) (locale : String) (phash : Img → List Bool)
    (db : List SongCover) (covers : List Img) :
    (locale = "auto" ∨ locale = "en-us" →
        translateNames transl names locale = some names
          ∧ translateNames transl names locale = translateNames transl' names locale)
      ∧ (¬(locale = "auto" ∨ locale = "en-us") →
          (∀ trf : String → String,
              (∀ n ∈ names, ((transl n).bind (fun t => t locale)) = some (trf n)) →
              translateNames transl names locale = some (names.map trf))
            ∧ (∀ n ∈ names, ((transl n).bind (fun t => t locale)) = none →
              translateNames transl names locale = none))
      ∧ (∀ res, musicScan phash db transl covers locale = some res →
          res.locale = pyReplace locale ("auto") ("en-us"))
      ∧ pyReplace ("auto") ("auto") ("en-us") = "en-us" := by
  refine ⟨?_, ?_, ?_, by decide⟩
  · intro h
    rw [translateNames, if_pos h, translateNames, if_pos h]
    exact ⟨rfl, rfl⟩
  · intro h
    constructor
    · intro trf htrf
      rw [translateNames, if_neg h]
      exact lookupAll_some _ trf names htrf
    · intro n hn hnone
      rw [translateNames, if_neg h]
      exact lookupAll_none _ names n hn hnone
  · intro res h
    exact musicScan_locale h

/-- Witness for C4: the passthrough locales, a successful and a failing
lookup for `de-eu`, and the resolved locale of a concrete scan. -/
theorem claim_C4_witness :
    (translateNames translDemo ["n1"] ("auto") = some ["n1"])
      ∧ (translateNames translDemo ["n1"] ("de-eu") = some ["N1"])
      ∧ (translateNames translDemo ["n1", "n2"] ("de-eu") = none)
      ∧ (∀ res, musicScan phashDemo [] translDemo [] ("de-eu") = some res →
          res.locale = pyReplace ("de-eu") ("auto") ("en-us")) := by
  refine ⟨?_, ?_, ?_, ?_⟩
  · exact ((claim_C4_amended translDemo translDemo ["n1"] ("auto") phashDemo [] []).1
      (Or.inl rfl)).1
  · exact ((claim_C4_amended translDemo translDemo ["n1"] ("de-eu") phashDemo [] []).2.1
      (by decide)).1 (fun _ => "N1") (by decide)
  · exact ((claim_C4_amended translDemo translDemo ["n1", "n2"] ("de-eu") phashDemo [] []).2.1
      (by decide)).2 "n2" (by decide) (by decide)
  · exact (claim_C4_amended translDemo translDemo [] ("de-eu") phashDemo [] []).2.2.1

/-- C7: every decoded frame of the music and recipes readers is checked
against the fixed 720×1280 resolution before anything else; a frame of
any other size makes the whole read fail with the assertion error (the
frame is not skipped), and the failure is independent of all frames
after the first offending one (nothing is retried and no later frame is
segmented). -/
theorem claim_C7 :
    (∀ (frames : List Img) (f : Img), f ∈ frames → frameShape f ≠ (720, 1280) →
        (∃ e, musicReadFrames frames = .error e)
          ∧ ∃ e, recipesReadFrames frames = .error e)
      ∧ (∀ (pre : List Img) (bad : Img) (rest rest' : List Img),
          frameShape bad ≠ (720, 1280) →
          musicReadFrames (pre ++ bad :: rest) = musicReadFrames (pre ++ bad :: rest')
            ∧ recipesReadFrames (pre ++ bad :: rest)
                = recipesReadFrames (pre ++ bad :: rest')) := by
  constructor
  · intro frames f hf hbad
    exact ⟨musicReadFrames_error frames f hf hbad,
      recipesReadFrames_error frames f hf hbad⟩
  · intro pre bad rest rest' hbad
    exact ⟨musicReadFrames_stops pre bad hbad rest rest',
      recipesReadFrames_stops pre bad hbad rest rest'⟩

/-- Witness for C7 on a 1×1 frame. -/
theorem claim_C7_witness :
    (∃ e, musicReadFrames [badFrame] = .error e)
      ∧ ∃ e, recipesReadFrames [badFrame] = .error e :=
  claim_C7.1 [badFrame] badFrame (by simp) (by decide)

/-- C8: after the database is built, the entries stored under `orange`,
`pink` and `yellow` are all the single concatenation of the original
orange, pink and yellow lists; every orange-stored entry is therefore
among the candidates of a pink-classified tile, and whatever the
matcher returns for a pink-classified tile is drawn from that merged
list (so it may be an entry stored under `orange`). -/
theorem claim_C8 (loadImg : String → Img) (data : List (String × String)) :
    getRecipeDb loadImg data ("orange") = recipeDbMerged loadImg data
      ∧ getRecipeDb loadImg data ("pink") = recipeDbMerged loadImg data
      ∧ getRecipeDb loadImg data ("yellow") = recipeDbMerged loadImg data
      ∧ recipeDbMerged loadImg data
          = recipeDbBase loadImg data ("orange") ++ recipeDbBase loadImg data ("pink")
            ++ recipeDbBase loadImg data ("yellow")
      ∧ (∀ r ∈ recipeDbBase loadImg data ("orange"), r ∈ getRecipeDb loadImg data ("pink"))
      ∧ (∀ (card : Img) (r : RecipeCard), guessCardType card = some ("pink") →
          findBestMatch card (getRecipeDb loadImg data ("pink")) = some r →
          r ∈ recipeDbMerged loadImg data) := by
  have ho : getRecipeDb loadImg data ("orange") = recipeDbMerged loadImg data := by
    rw [getRecipeDb, if_pos (Or.inl rfl)]
  have hp : getRecipeDb loadImg data ("pink") = recipeDbMerged loadImg data := by
    rw [getRecipeDb, if_pos (Or.inr (Or.inl rfl))]
  have hy : getRecipeDb loadImg data ("yellow") = recipeDbMerged loadImg data := by
    rw [getRecipeDb, if_pos (Or.inr (Or.inr rfl))]
  refine ⟨ho, hp, hy, rfl, ?_, ?_⟩
  · intro r hr
    rw [hp, recipeDbMerged]
    exact List.mem_append_left _ (List.mem_append_left _ hr)
  · intro card r _ hfind
    rw [hp] at hfind
    exact findBestMatch_mem hfind

set_option maxRecDepth 1000000 in
/-- Witness for C8: in the sample database the orange-stored item `o1`
is among the `pink` candidates, and the all-pink card — classified
`pink` — is in fact matched to it. -/
theorem claim_C8_witness :
    mkRecipeCard demoLoad ("o1") ("orange") ∈ getRecipeDb demoLoad demoData ("pink")
      ∧ guessCardType pinkCard = some ("pink")
      ∧ findBestMatch pinkCard (getRecipeDb demoLoad demoData ("pink"))
          = some (mkRecipeCard demoLoad ("o1") ("orange"))
      ∧ mkRecipeCard demoLoad ("o1") ("orange") ∈ recipeDbMerged demoLoad demoData := by
  have h1 : guessCardType pinkCard = some ("pink") := by
    with_unfolding_all decide
  have h2 : findBestMatch pinkCard (getRecipeDb demoLoad demoData ("pink"))
      = some (mkRecipeCard demoLoad ("o1") ("orange")) := by
    with_unfolding_all decide
  have hmem : mkRecipeCard demoLoad ("o1") ("orange")
      ∈ recipeDbBase demoLoad demoData ("orange") := by
    with_unfolding_all decide
  exact ⟨(claim_C8 demoLoad demoData).2.2.2.2.1 _ hmem, h1, h2,
    (claim_C8 demoLoad demoData).2.2.2.2.2 pinkCard _ h1 h2⟩

/-- C10: a tile whose sampled strip (rows 5..24, columns 60..199) has
mean colour within Euclidean distance 5 of the background colour
(238, 217, 101) is a blank; blanks never survive `_remove_blanks`, so
they are absent from the cover list `parse_video` hands to the matcher
and never contribute a matched name. -/
theorem claim_C10 (rows : List (List Img)) (icons : List Img) (icon : Img)
    (hb : isBlankIcon icon = true) :
    (∀ ics : List Img, icon ∉ removeBlanks ics)
      ∧ (musicParseVideoRows rows = .ok icons → icon ∉ icons) := by
  have hgen : ∀ ics : List Img, icon ∉ removeBlanks ics := by
    intro ics hmem
    rw [removeBlanks] at hmem
    have hkeep := (List.mem_filter.mp hmem).2
    rw [hb] at hkeep
    simp at hkeep
  refine ⟨hgen, ?_⟩
  intro hp
  obtain ⟨allc, _, hicons⟩ := musicParseVideoRows_ok hp
  exact hicons ▸ hgen allc

/-- Witness for C10: a background-coloured icon is blank; a frame-row
of four such icons is accepted into the history but entirely filtered
out, so the parsed cover list is empty. -/
theorem claim_C10_witness :
    blankIcon ∉ removeBlanks [blankIcon, tile9] ∧ blankIcon ∉ ([] : List Img) := by
  have hb : isBlankIcon blankIcon = true := by
    with_unfolding_all decide
  have hp : musicParseVideoRows rowsBlank = .ok [] := by
    with_unfolding_all rfl
  exact ⟨(claim_C10 rowsBlank [] blankIcon hb).1 [blankIcon, tile9],
    (claim_C10 rowsBlank [] blankIcon hb).2 hp⟩
